import Mathlib

/-!
# Verification of the Signature & Structure Diff Engine

A shallow embedding, in Lean 4, of the core of the `kernel_api_diff`
repository: the declaration extractor, the parameter-list decomposer, the
structural diff engine and the ABI impact classifier, translated from
`analyze_source_diff.py`, `kernel_api_analyzer.py` and
`abi_impact_analyzer.py`.  Python strings are modelled as `String`/`List
Char`, Python lists as `List`, dictionaries with fixed keys as structures,
and code that can raise as `Except String`/`Option`.  File contents are
passed in as `Option (List String)` (`none` models a file that cannot be
opened, which the Python code turns into a caught exception).
-/

namespace KernelApiDiff

/-! ## String helpers (Python `str` operations on `List Char`) -/

/-- Python `str.strip()`: remove leading and trailing whitespace. -/
def strip (cs : List Char) : List Char :=
  ((cs.dropWhile Char.isWhitespace).reverse.dropWhile Char.isWhitespace).reverse

/-- Python `re.sub(r'\s+', ' ', s)`: replace every maximal run of whitespace
by a single space.  Of a run of whitespace characters only the last is kept,
as `' '`. -/
def collapseWS : List Char → List Char
  | [] => []
  | [c] => if c.isWhitespace then [' '] else [c]
  | c₁ :: c₂ :: cs =>
    if c₁.isWhitespace && c₂.isWhitespace then collapseWS (c₂ :: cs)
    else (if c₁.isWhitespace then ' ' else c₁) :: collapseWS (c₂ :: cs)

/-- Python `str.split()` (no separator): the maximal whitespace-free runs,
accumulator version. -/
def wsTokensAux : List Char → List Char → List (List Char)
  | [], cur => if cur.isEmpty then [] else [cur.reverse]
  | c :: cs, cur =>
    if c.isWhitespace then
      if cur.isEmpty then wsTokensAux cs [] else cur.reverse :: wsTokensAux cs []
    else wsTokensAux cs (c :: cur)

/-- Python `str.split()` (no separator). -/
def wsTokens (cs : List Char) : List (List Char) := wsTokensAux cs []

/-- `needle` occurs as a contiguous substring of `hay` (Python `in` on `str`). -/
def containsSub (needle hay : List Char) : Bool :=
  hay.tails.any fun t => needle.isPrefixOf t

/-! ## Data model (`analyze_source_diff.py`)

The dictionaries built by `SourceDiffAnalyzer._parse_single_param` and
`compare_function_parameters` have fixed keys, so they are structures here;
the `'type'` tag strings of the parameter-change dictionaries become the
constructors of `ParamChange`. -/

/-- The dictionary `{'type': …, 'name': …, 'full': …}` built by
`_parse_single_param` (analyze_source_diff.py:120-124). -/
structure Param where
  type : String
  name : String
  full : String
deriving DecidableEq

/-- The parameter-change records built by `compare_function_parameters`
(analyze_source_diff.py:126-178); constructor names are the Python
`'type'` tag strings. -/
inductive ParamChange
  | param_count_change (old_count new_count : Nat)
  | param_type_change (position : Nat) (old_type new_type param_name : String)
  | param_name_change (position : Nat) (old_name new_name : String)
  | param_added (position : Nat) (param : String)
  | param_removed (position : Nat) (param : String)
deriving DecidableEq

/-! ## Parameter list decomposer (`analyze_source_diff.py:72-124`) -/

/-- `re.search(r'\((.*?)\)', signature)`, the capture of group 1: the span
after the leftmost `'('` that is followed by a `')'` with no newline in
between (`.` does not match a newline), up to that first `')'`. -/
def findParamSpan : List Char → Option (List Char)
  | [] => none
  | c :: rest =>
    if c = '(' then
      if (rest.dropWhile fun x => x != ')' && x != '\n').head? = some ')' then
        some (rest.takeWhile fun x => x != ')' && x != '\n')
      else findParamSpan rest
    else findParamSpan rest

/-- `param.rsplit(None, 1)` on an already whitespace-normalized string:
split off the part after the last space, if any. -/
def splitLastSpace (p : List Char) : Option (List Char × List Char) :=
  match (p.reverse.dropWhile fun c => c != ' ') with
  | [] => none
  | _ :: typeR => some (typeR.reverse, (p.reverse.takeWhile fun c => c != ' ').reverse)

/-- `SourceDiffAnalyzer._parse_single_param` (analyze_source_diff.py:103-124):
normalize whitespace, take the last whitespace-delimited token as the name
and the remainder as the type; a name starting with `'*'` has one `' *'`
appended to the type and all leading `'*'` stripped from the name. -/
def _parse_single_param (param : String) : Param :=
  let p := collapseWS (strip param.toList)
  match splitLastSpace p with
  | some (t, n) =>
    let tn : List Char × List Char :=
      if n.head? = some '*' then (t ++ [' ', '*'], n.dropWhile fun c => c = '*')
      else (t, n)
    { type := (strip tn.1).asString, name := (strip tn.2).asString, full := p.asString }
  | none => { type := (strip p).asString, name := "", full := p.asString }

/-- The comma-splitting loop of `parse_function_parameters`
(analyze_source_diff.py:84-99): split on commas at bracket depth 0, where
any of `([{` opens and any of `)]}` closes a level; empty fragments are
dropped.  (The caller appends a trailing `','`, so a fragment still open at
the end of the text is dropped, as in the source.) -/
def splitTopCommas : List Char → Int → List Char → List (List Char)
  | [], _, _ => []
  | c :: cs, depth, cur =>
    if c = ',' && depth == 0 then
      (if (strip cur).isEmpty then [] else [strip cur]) ++ splitTopCommas cs depth []
    else
      let depth' : Int :=
        if c = '(' || c = '[' || c = '{' then depth + 1
        else if c = ')' || c = ']' || c = '}' then depth - 1
        else depth
      splitTopCommas cs depth' (cur ++ [c])

/-- `SourceDiffAnalyzer.parse_function_parameters`
(analyze_source_diff.py:72-101). -/
def parse_function_parameters (signature : String) : List Param :=
  match findParamSpan signature.toList with
  | none => []
  | some span =>
    let params_str := strip span
    if params_str.isEmpty || params_str = "void".toList then []
    else (splitTopCommas (params_str ++ [',']) 0 []).map fun f => _parse_single_param f.asString

/-! ## Structural diff engine (`analyze_source_diff.py:126-178, 214-237`) -/

/-- The default used only to state `List.getD` indexing; every index used is
in range. -/
def defaultParam : Param := ⟨"", "", ""⟩

/-- One iteration of the positional loop of `compare_function_parameters`
(analyze_source_diff.py:139-158): at position `i` of the overlapping prefix,
a `param_type_change` when the types differ (its `param_name` is
`new_p.get('name', …)`, and the `'name'` key is always present, so it is the
new parameter's name), then a `param_name_change` when both names are
non-empty and differ (Python truthiness of `old_p.get('name')`). -/
def prefixChanges (old_params new_params : List Param) (i : Nat) : List ParamChange :=
  let old_p := old_params.getD i defaultParam
  let new_p := new_params.getD i defaultParam
  (if old_p.type ≠ new_p.type then
    [.param_type_change i old_p.type new_p.type new_p.name]
  else [])
  ++ (if old_p.name ≠ "" ∧ new_p.name ≠ "" ∧ old_p.name ≠ new_p.name then
    [.param_name_change i old_p.name new_p.name]
  else [])

/-- `SourceDiffAnalyzer.compare_function_parameters`
(analyze_source_diff.py:126-178): the records are appended in source order —
the count change, the positional prefix records, the added records, the
removed records. -/
def compare_function_parameters (old_params new_params : List Param) : List ParamChange :=
  (if old_params.length ≠ new_params.length then
    [.param_count_change old_params.length new_params.length]
  else [])
  ++ (List.range (min old_params.length new_params.length)).flatMap
      (prefixChanges old_params new_params)
  ++ (if old_params.length < new_params.length then
    (List.range' old_params.length (new_params.length - old_params.length)).map
      fun i => .param_added i (new_params.getD i defaultParam).full
  else [])
  ++ (if new_params.length < old_params.length then
    (List.range' new_params.length (old_params.length - new_params.length)).map
      fun i => .param_removed i (old_params.getD i defaultParam).full
  else [])

/-- One entry of the `'modified'` list of `compare_struct_fields`
(analyze_source_diff.py:226-231); its `'change'` key is always the constant
`'reordered'` and is omitted. -/
structure ReorderEntry where
  position : Nat
  old : String
  new : String
deriving DecidableEq

/-- The result dictionary of `compare_struct_fields`
(analyze_source_diff.py:233-237).  In the source `added` and `removed` are
`list(set − set)`, whose order Python leaves unspecified; here they are the
distinct elements in first-occurrence order, which carries the same set. -/
structure FieldChanges where
  added : List String
  removed : List String
  modified : List ReorderEntry
deriving DecidableEq

/-- `SourceDiffAnalyzer.compare_struct_fields`
(analyze_source_diff.py:214-237): set differences for `added`/`removed`, and
a `reordered` entry at each position `i` of `zip(old_fields, new_fields)`
where the texts differ but each occurs somewhere in the other list. -/
def compare_struct_fields (old_fields new_fields : List String) : FieldChanges :=
  { added := new_fields.dedup.filter fun x => decide (x ∉ old_fields)
    removed := old_fields.dedup.filter fun x => decide (x ∉ new_fields)
    modified :=
      (List.range (min old_fields.length new_fields.length)).filterMap fun i =>
        let old_f := old_fields.getD i ""
        let new_f := new_fields.getD i ""
        if old_f ≠ new_f ∧ old_f ∈ new_fields ∧ new_f ∈ old_fields then
          some ⟨i, old_f, new_f⟩
        else none }

/-! ## Declaration extractor (`analyze_source_diff.py:42-70, 180-212`) -/

/-- The scan loop of `extract_function_signature`
(analyze_source_diff.py:53-61): accumulate stripped lines, stopping after
(and including) the first line that contains `'{'` or `';'`. -/
def scanSigLines : List String → List String
  | [] => []
  | l :: ls =>
    let line := (strip l.toList).asString
    if '{' ∈ line.toList then [line]
    else if ';' ∈ line.toList then [line]
    else line :: scanSigLines ls

/-- `' '.join(…)` on the accumulated lines. -/
def joinSpace (ls : List String) : List Char :=
  List.intercalate [' '] (ls.map String.toList)

/-- `SourceDiffAnalyzer.extract_function_signature`
(analyze_source_diff.py:42-70).  The file is `none` when it cannot be read:
the Python `except` then returns `""`.  The scan window is
`range(max(0, line_num - 1), min(len(lines), line_num + 20))`; the joined
window is whitespace-collapsed, truncated at the first `'{'` and stripped. -/
def extract_function_signature (file : Option (List String)) (line_num : Nat) : String :=
  match file with
  | none => ""
  | some lines =>
    let lo := line_num - 1
    let hi := min lines.length (line_num + 20)
    let window := (List.range' lo (hi - lo)).map fun i => lines.getD i ""
    let signature := collapseWS (joinSpace (scanSigLines window))
    (strip (signature.takeWhile fun c => c != '{')).asString

/-- The scan loop of `extract_struct_fields`
(analyze_source_diff.py:190-208).  The entry condition — the line contains
`'struct'`, the struct name and `'{'` — is tested on every line, also while
already inside the body: a matching line always (re)sets the state to
in-struct with brace count 1 and is itself skipped (`continue`), neither
brace-counted nor collected.  On every other line, outside the body nothing
is collected; inside, the brace count is updated per line, the loop stops
when it reaches 0, and a line containing `';'` that is not a `//` line
contributes its text before the first `';'` when that text is non-empty and
does not start with `/*`. -/
def scanStructLines (struct_name : String) : List String → Bool → Int → List String
  | [], _, _ => []
  | l :: ls, in_struct, brace_count =>
    let line := (strip l.toList).asString
    if containsSub "struct".toList line.toList
        && containsSub struct_name.toList line.toList && line.toList.contains '{' then
      scanStructLines struct_name ls true 1
    else if in_struct then
      let bc : Int := brace_count + line.toList.count '{' - line.toList.count '}'
      if bc = 0 then []
      else
        let rest := scanStructLines struct_name ls true bc
        if ';' ∈ line.toList ∧ ¬ ("//".toList.IsPrefix line.toList) then
          let field := (strip (line.toList.takeWhile fun c => c != ';')).asString
          if field ≠ "" ∧ ¬ ("/*".toList.IsPrefix field.toList) then field :: rest
          else rest
        else rest
    else scanStructLines struct_name ls in_struct brace_count

/-- `SourceDiffAnalyzer.extract_struct_fields`
(analyze_source_diff.py:180-212).  The file is `none` when it cannot be
read: the Python `except` then returns `[]`.  The scan window is
`range(max(0, line_num - 1), min(len(lines), line_num + 500))`. -/
def extract_struct_fields
    (file : Option (List String)) (struct_name : String) (line_num : Nat) : List String :=
  match file with
  | none => []
  | some lines =>
    let lo := line_num - 1
    let hi := min lines.length (line_num + 500)
    let window := (List.range' lo (hi - lo)).map fun i => lines.getD i ""
    scanStructLines struct_name window false 0

/-! ## The modified-function analysis step (`kernel_api_analyzer.py:90-115`)

`KernelAPIAnalyzer._analyze_functions`, for a symbol present in both trees,
compares the two extracted signatures and, when they differ, parses and
diffs the parameters and computes the return-type fields.  The return-token
computation `sig.split('(')[0].strip().split()[-1]` indexes the last element
of a Python list and raises `IndexError` when that list is empty; the
embedding returns `Except.error` there. -/

/-- `sig.split('(')[0]`: the text before the first `'('` (the whole string
when there is none). -/
def beforeFirstParen (s : String) : List Char :=
  s.toList.takeWhile fun c => c != '('

/-- `sig.split('(')[0].strip().split()[-1]` as an `Option`: `none` models the
`IndexError` raised on an empty token list (kernel_api_analyzer.py:100-101). -/
def lastTokenBeforeParen (s : String) : Option String :=
  ((wsTokens (strip (beforeFirstParen s))).getLast?).map List.asString

/-- The fields of the `'modified'` change record built at
kernel_api_analyzer.py:103-115 that depend on the two signatures. -/
structure ModifiedFunctionRecord where
  return_type_changed : Bool
  old_return_type : String
  new_return_type : String
  parameter_changes : List ParamChange
deriving DecidableEq

/-- The per-symbol body of `KernelAPIAnalyzer._analyze_functions`
(kernel_api_analyzer.py:90-115) on the two extracted signatures:
`.ok none` when the signatures are equal (no record emitted), `.ok (some r)`
when the analysis completes, and `.error` for the uncaught `IndexError` of
`old_sig.split('(')[0].strip().split()[-1]` when a signature has no token
before its first `'('`. -/
def analyzeModifiedFunction (old_sig new_sig : String) :
    Except String (Option ModifiedFunctionRecord) :=
  if old_sig = new_sig then .ok none
  else
    let old_params := parse_function_parameters old_sig
    let new_params := parse_function_parameters new_sig
    let param_changes := compare_function_parameters old_params new_params
    match lastTokenBeforeParen old_sig, lastTokenBeforeParen new_sig with
    | some old_return, some new_return =>
      .ok (some { return_type_changed := decide (old_return ≠ new_return)
                  old_return_type := old_return
                  new_return_type := new_return
                  parameter_changes := param_changes })
    | _, _ => .error "IndexError: list index out of range"

/-! ## ABI impact classifier (`abi_impact_analyzer.py`) -/

/-- The finding dictionary built by `ABIImpactAnalyzer`
(abi_impact_analyzer.py:50-57, 82-89); `severity` is the Python string
`'high'` or `'medium'`. -/
structure ABIFinding where
  type : String
  name : String
  file : String
  severity : String
  reasons : List String
  recommendation : String
deriving DecidableEq

/-- The `'modified'` struct change record as the classifier reads it. -/
structure StructChangeRecord where
  name : String
  file : String
  field_changes : FieldChanges
deriving DecidableEq

/-- The `'modified'` function change record as the classifier reads it. -/
structure FunctionChangeRecord where
  name : String
  file : String
  parameter_changes : List ParamChange
  return_type_changed : Bool
deriving DecidableEq

/-- `p['type'] == 'param_count_change'`. -/
def isCountChange : ParamChange → Bool
  | .param_count_change _ _ => true
  | _ => false

/-- `p['type'] == 'param_type_change'`. -/
def isTypeChange : ParamChange → Bool
  | .param_type_change _ _ _ _ => true
  | _ => false

/-- `p['type'] == 'param_name_change'`. -/
def isNameChange : ParamChange → Bool
  | .param_name_change _ _ _ => true
  | _ => false

/-- `p['type'] == 'param_added'`. -/
def isAddedChange : ParamChange → Bool
  | .param_added _ _ => true
  | _ => false

/-- `p['type'] == 'param_removed'`. -/
def isRemovedChange : ParamChange → Bool
  | .param_removed _ _ => true
  | _ => false

/-- `ABIImpactAnalyzer._analyze_struct_abi_impact`
(abi_impact_analyzer.py:29-59): reasons accumulate for removed, reordered
and added fields; a finding is returned only when some reason is present,
with severity `'high'` iff `removed` is non-empty (Python truthiness of
`fc.get('removed')`). -/
def _analyze_struct_abi_impact (s : StructChangeRecord) : Option ABIFinding :=
  let fc := s.field_changes
  let breaking_reasons :=
    (if fc.removed ≠ [] then ["Fields removed"] else [])
    ++ (if fc.modified ≠ [] then ["Fields reordered"] else [])
    ++ (if fc.added ≠ [] then ["Fields added (potential ABI break)"] else [])
  if breaking_reasons ≠ [] then
    some { type := "structure", name := s.name, file := s.file
           severity := if fc.removed ≠ [] then "high" else "medium"
           reasons := breaking_reasons
           recommendation := "Review all users of this structure" }
  else none

/-- `ABIImpactAnalyzer._analyze_function_abi_impact`
(abi_impact_analyzer.py:61-91): reasons accumulate for count changes, type
changes and the return-type flag; `param_name_change` entries contribute
nothing, and with no reason no finding is returned. -/
def _analyze_function_abi_impact (f : FunctionChangeRecord) : Option ABIFinding :=
  let count_changes := f.parameter_changes.filter isCountChange
  let type_changes := f.parameter_changes.filter isTypeChange
  let breaking_reasons :=
    (if count_changes ≠ [] then ["Parameter count changed"] else [])
    ++ (if type_changes ≠ [] then
      [toString type_changes.length ++ " parameter type(s) changed"] else [])
    ++ (if f.return_type_changed then ["Return type changed"] else [])
  if breaking_reasons ≠ [] then
    some { type := "function", name := f.name, file := f.file, severity := "high"
           reasons := breaking_reasons, recommendation := "Update all callers" }
  else none

/-! ## Helper lemmas -/

theorem mem_ite_singleton {α : Type} {c : Prop} [Decidable c] {a x : α} :
    (x ∈ if c then [a] else []) ↔ c ∧ x = a := by
  split <;> simp_all

theorem mem_prefixChanges {old_params new_params : List Param} {i : Nat} {x : ParamChange} :
    x ∈ prefixChanges old_params new_params i ↔
      ((old_params.getD i defaultParam).type ≠ (new_params.getD i defaultParam).type ∧
        x = .param_type_change i (old_params.getD i defaultParam).type
          (new_params.getD i defaultParam).type (new_params.getD i defaultParam).name) ∨
      (((old_params.getD i defaultParam).name ≠ "" ∧
        (new_params.getD i defaultParam).name ≠ "" ∧
        (old_params.getD i defaultParam).name ≠ (new_params.getD i defaultParam).name) ∧
        x = .param_name_change i (old_params.getD i defaultParam).name
          (new_params.getD i defaultParam).name) := by
  simp only [prefixChanges, List.mem_append, mem_ite_singleton]

/-- The span captured by the non-greedy regex stops at the first `')'` (or
newline): neither occurs inside it. -/
theorem findParamSpan_no_close {cs span : List Char} (h : findParamSpan cs = some span) :
    (')' ∈ span → False) ∧ ('\n' ∈ span → False) := by
  induction cs with
  | nil => simp [findParamSpan] at h
  | cons c rest ih =>
    rw [findParamSpan] at h
    by_cases hc : c = '('
    · rw [if_pos hc] at h
      split at h
      · cases h
        constructor <;> intro hmem <;>
          simpa using List.mem_takeWhile_imp hmem
      · exact ih h
    · rw [if_neg hc] at h
      exact ih h

/-- Whitespace surviving `collapseWS` is always the single space it inserts. -/
theorem collapseWS_ws_eq_space {cs : List Char} {c : Char} (h : c ∈ collapseWS cs)
    (hws : c.isWhitespace) : c = ' ' := by
  induction cs with
  | nil => simp [collapseWS] at h
  | cons c₁ tail ih =>
    match tail with
    | [] =>
      rw [collapseWS] at h
      split at h <;> simp_all
    | c₂ :: rest =>
      rw [collapseWS] at h
      split at h
      · exact ih h
      · rcases List.mem_cons.mp h with hc | hc
        · subst hc
          split at hws <;> simp_all
        · exact ih hc

theorem dropWhile_eq_self_of_none {p : Char → Bool} {l : List Char}
    (h : ∀ a ∈ l, ¬ p a) : l.dropWhile p = l := by
  cases l with
  | nil => rfl
  | cons a l =>
    rw [List.dropWhile_cons, if_neg]
    simpa using h a (List.mem_cons_self a l)

theorem strip_eq_self_of_no_ws {l : List Char} (h : ∀ a ∈ l, ¬ a.isWhitespace) :
    strip l = l := by
  unfold strip
  rw [dropWhile_eq_self_of_none h, dropWhile_eq_self_of_none, List.reverse_reverse]
  intro a ha
  exact h a (List.mem_reverse.mp ha)

theorem head_dropWhile_false {p : Char → Bool} {l : List Char} {a : Char}
    (h : (l.dropWhile p).head? = some a) : p a = false := by
  induction l with
  | nil => simp [List.dropWhile] at h
  | cons b l ih =>
    rw [List.dropWhile_cons] at h
    split at h
    · exact ih h
    · simp_all

/-- Characters of the name part of `rsplit(None, 1)` come from the input
and are not spaces. -/
theorem splitLastSpace_name_mem {p t n : List Char} (h : splitLastSpace p = some (t, n))
    {c : Char} (hc : c ∈ n) : c ∈ p ∧ c ≠ ' ' := by
  unfold splitLastSpace at h
  split at h
  · cases h
  · cases h
    refine ⟨?_, ?_⟩
    · have := (List.takeWhile_sublist (fun c => c != ' ')).mem (List.mem_reverse.mp hc)
      exact List.mem_reverse.mp this
    · have := List.mem_takeWhile_imp (List.mem_reverse.mp hc)
      simpa using this

/-- The name produced by `_parse_single_param` never starts with `'*'`:
dropping leading asterisks leaves it unchanged. -/
theorem parse_single_param_name_no_star (s : String) :
    ((_parse_single_param s).name.toList.dropWhile fun c => c = '*') =
      (_parse_single_param s).name.toList := by
  unfold _parse_single_param
  rcases hsplit : splitLastSpace (collapseWS (strip s.toList)) with _ | ⟨t, n⟩
  · simp only [hsplit]
    rfl
  · have hnchars : ∀ c ∈ n, ¬ c.isWhitespace := by
      intro c hc
      obtain ⟨hcp, hcs⟩ := splitLastSpace_name_mem hsplit hc
      intro hws
      exact hcs (collapseWS_ws_eq_space hcp hws)
    simp only [hsplit]
    by_cases hstar : n.head? = some '*'
    · rw [if_pos hstar]
      simp only [List.toList_asString]
      have hsub : ∀ c ∈ (n.dropWhile fun c => decide (c = '*')), ¬ c.isWhitespace := by
        intro c hc
        exact hnchars c ((List.dropWhile_sublist _).mem hc)
      rw [strip_eq_self_of_no_ws hsub]
      rcases hdrop : (n.dropWhile fun c => decide (c = '*')) with _ | ⟨a, l⟩
      · rfl
      · have ha : ((n.dropWhile fun c => decide (c = '*'))).head? = some a := by
          rw [hdrop]; rfl
        have ha' := head_dropWhile_false ha
        rw [List.dropWhile_cons, if_neg (by simp_all)]
    · rw [if_neg hstar]
      simp only [List.toList_asString]
      rw [strip_eq_self_of_no_ws hnchars]
      rcases n with _ | ⟨a, l⟩
      · rfl
      · have : a ≠ '*' := by
          intro hEq
          exact hstar (by rw [hEq]; rfl)
        rw [List.dropWhile_cons, if_neg (by simp_all)]

/-- Of the records of `compare_function_parameters`, exactly the count
record passes `isCountChange`, and it is present iff the lengths differ. -/
theorem compare_filter_count (old_params new_params : List Param) :
    (compare_function_parameters old_params new_params).filter isCountChange =
      if old_params.length = new_params.length then []
      else [.param_count_change old_params.length new_params.length] := by
  unfold compare_function_parameters
  rw [List.filter_append, List.filter_append, List.filter_append]
  have h2 : ((List.range (min old_params.length new_params.length)).flatMap
      (prefixChanges old_params new_params)).filter isCountChange = [] := by
    refine List.filter_eq_nil_iff.mpr fun x hx => ?_
    rcases List.mem_flatMap.mp hx with ⟨i, -, hmem⟩
    rcases mem_prefixChanges.mp hmem with ⟨-, rfl⟩ | ⟨-, rfl⟩ <;> simp [isCountChange]
  have h3 : ((if old_params.length < new_params.length then
      (List.range' old_params.length (new_params.length - old_params.length)).map
        fun i => ParamChange.param_added i ((new_params.getD i defaultParam).full)
      else []) : List ParamChange).filter isCountChange = [] := by
    split
    · refine List.filter_eq_nil_iff.mpr fun x hx => ?_
      rcases List.mem_map.mp hx with ⟨i, -, rfl⟩
      simp [isCountChange]
    · rfl
  have h4 : ((if new_params.length < old_params.length then
      (List.range' new_params.length (old_params.length - new_params.length)).map
        fun i => ParamChange.param_removed i ((old_params.getD i defaultParam).full)
      else []) : List ParamChange).filter isCountChange = [] := by
    split
    · refine List.filter_eq_nil_iff.mpr fun x hx => ?_
      rcases List.mem_map.mp hx with ⟨i, -, rfl⟩
      simp [isCountChange]
    · rfl
  rw [h2, h3, h4]
  by_cases h : old_params.length = new_params.length <;>
    simp [h, isCountChange]

/-- The `param_added` records are exactly the trailing extra new parameters,
in source order. -/
theorem compare_filter_added (old_params new_params : List Param) :
    (compare_function_parameters old_params new_params).filter isAddedChange =
      if old_params.length < new_params.length then
        (List.range' old_params.length (new_params.length - old_params.length)).map
          fun i => .param_added i ((new_params.getD i defaultParam).full)
      else [] := by
  unfold compare_function_parameters
  rw [List.filter_append, List.filter_append, List.filter_append]
  have h1 : ((if old_params.length ≠ new_params.length then
      [ParamChange.param_count_change old_params.length new_params.length]
      else []) : List ParamChange).filter isAddedChange = [] := by
    split <;> simp [isAddedChange]
  have h2 : ((List.range (min old_params.length new_params.length)).flatMap
      (prefixChanges old_params new_params)).filter isAddedChange = [] := by
    refine List.filter_eq_nil_iff.mpr fun x hx => ?_
    rcases List.mem_flatMap.mp hx with ⟨i, -, hmem⟩
    rcases mem_prefixChanges.mp hmem with ⟨-, rfl⟩ | ⟨-, rfl⟩ <;> simp [isAddedChange]
  have h3 : ((if old_params.length < new_params.length then
      (List.range' old_params.length (new_params.length - old_params.length)).map
        fun i => ParamChange.param_added i ((new_params.getD i defaultParam).full)
      else []) : List ParamChange).filter isAddedChange =
      (if old_params.length < new_params.length then
      (List.range' old_params.length (new_params.length - old_params.length)).map
        fun i => ParamChange.param_added i ((new_params.getD i defaultParam).full)
      else []) := by
    refine List.filter_eq_self.mpr fun x hx => ?_
    split at hx
    · rcases List.mem_map.mp hx with ⟨i, -, rfl⟩
      rfl
    · cases hx
  have h4 : ((if new_params.length < old_params.length then
      (List.range' new_params.length (old_params.length - new_params.length)).map
        fun i => ParamChange.param_removed i ((old_params.getD i defaultParam).full)
      else []) : List ParamChange).filter isAddedChange = [] := by
    split
    · refine List.filter_eq_nil_iff.mpr fun x hx => ?_
      rcases List.mem_map.mp hx with ⟨i, -, rfl⟩
      simp [isAddedChange]
    · rfl
  rw [h1, h2, h3, h4]
  simp

/-- The `param_removed` records are exactly the trailing extra old
parameters, in source order. -/
theorem compare_filter_removed (old_params new_params : List Param) :
    (compare_function_parameters old_params new_params).filter isRemovedChange =
      if new_params.length < old_params.length then
        (List.range' new_params.length (old_params.length - new_params.length)).map
          fun i => .param_removed i ((old_params.getD i defaultParam).full)
      else [] := by
  unfold compare_function_parameters
  rw [List.filter_append, List.filter_append, List.filter_append]
  have h1 : ((if old_params.length ≠ new_params.length then
      [ParamChange.param_count_change old_params.length new_params.length]
      else []) : List ParamChange).filter isRemovedChange = [] := by
    split <;> simp [isRemovedChange]
  have h2 : ((List.range (min old_params.length new_params.length)).flatMap
      (prefixChanges old_params new_params)).filter isRemovedChange = [] := by
    refine List.filter_eq_nil_iff.mpr fun x hx => ?_
    rcases List.mem_flatMap.mp hx with ⟨i, -, hmem⟩
    rcases mem_prefixChanges.mp hmem with ⟨-, rfl⟩ | ⟨-, rfl⟩ <;> simp [isRemovedChange]
  have h3 : ((if old_params.length < new_params.length then
      (List.range' old_params.length (new_params.length - old_params.length)).map
        fun i => ParamChange.param_added i ((new_params.getD i defaultParam).full)
      else []) : List ParamChange).filter isRemovedChange = [] := by
    split
    · refine List.filter_eq_nil_iff.mpr fun x hx => ?_
      rcases List.mem_map.mp hx with ⟨i, -, rfl⟩
      simp [isRemovedChange]
    · rfl
  have h4 : ((if new_params.length < old_params.length then
      (List.range' new_params.length (old_params.length - new_params.length)).map
        fun i => ParamChange.param_removed i ((old_params.getD i defaultParam).full)
      else []) : List ParamChange).filter isRemovedChange =
      (if new_params.length < old_params.length then
      (List.range' new_params.length (old_params.length - new_params.length)).map
        fun i => ParamChange.param_removed i ((old_params.getD i defaultParam).full)
      else []) := by
    refine List.filter_eq_self.mpr fun x hx => ?_
    split at hx
    · rcases List.mem_map.mp hx with ⟨i, -, rfl⟩
      rfl
    · cases hx
  rw [h1, h2, h3, h4]
  simp

/-- The positional type-change record at position `i` is emitted iff `i` is
in the overlapping prefix and the types at `i` differ. -/
theorem compare_mem_type_change (old_params new_params : List Param) (i : Nat) :
    (ParamChange.param_type_change i (old_params.getD i defaultParam).type
        (new_params.getD i defaultParam).type (new_params.getD i defaultParam).name ∈
      compare_function_parameters old_params new_params) ↔
      (i < min old_params.length new_params.length ∧
        (old_params.getD i defaultParam).type ≠ (new_params.getD i defaultParam).type) := by
  unfold compare_function_parameters
  simp only [List.mem_append]
  constructor
  · rintro (((h | h) | h) | h)
    · rcases mem_ite_singleton.mp h with ⟨-, h⟩
      cases h
    · rcases List.mem_flatMap.mp h with ⟨j, hj, hmem⟩
      rcases mem_prefixChanges.mp hmem with ⟨hne, heq⟩ | ⟨-, heq⟩
      · obtain ⟨rfl, -, -, -⟩ := ParamChange.param_type_change.inj heq.symm
        exact ⟨List.mem_range.mp hj, hne⟩
      · cases heq
    · split at h
      · rcases List.mem_map.mp h with ⟨j, -, heq⟩
        cases heq
      · cases h
    · split at h
      · rcases List.mem_map.mp h with ⟨j, -, heq⟩
        cases heq
      · cases h
  · rintro ⟨hi, hne⟩
    refine Or.inl (Or.inl (Or.inr (List.mem_flatMap.mpr ⟨i, List.mem_range.mpr hi, ?_⟩)))
    exact mem_prefixChanges.mpr (Or.inl ⟨hne, rfl⟩)

/-- The positional name-change record at position `i` is emitted iff `i` is
in the overlapping prefix and both names are non-empty and differ — with no
condition on the types at `i`. -/
theorem compare_mem_name_change (old_params new_params : List Param) (i : Nat) :
    (ParamChange.param_name_change i (old_params.getD i defaultParam).name
        (new_params.getD i defaultParam).name ∈
      compare_function_parameters old_params new_params) ↔
      (i < min old_params.length new_params.length ∧
        (old_params.getD i defaultParam).name ≠ "" ∧
        (new_params.getD i defaultParam).name ≠ "" ∧
        (old_params.getD i defaultParam).name ≠ (new_params.getD i defaultParam).name) := by
  unfold compare_function_parameters
  simp only [List.mem_append]
  constructor
  · rintro (((h | h) | h) | h)
    · rcases mem_ite_singleton.mp h with ⟨-, h⟩
      cases h
    · rcases List.mem_flatMap.mp h with ⟨j, hj, hmem⟩
      rcases mem_prefixChanges.mp hmem with ⟨-, heq⟩ | ⟨hcond, heq⟩
      · cases heq
      · obtain ⟨rfl, -, -⟩ := ParamChange.param_name_change.inj heq.symm
        exact ⟨List.mem_range.mp hj, hcond⟩
    · split at h
      · rcases List.mem_map.mp h with ⟨j, -, heq⟩
        cases heq
      · cases h
    · split at h
      · rcases List.mem_map.mp h with ⟨j, -, heq⟩
        cases heq
      · cases h
  · rintro ⟨hi, hcond⟩
    refine Or.inl (Or.inl (Or.inr (List.mem_flatMap.mpr ⟨i, List.mem_range.mpr hi, ?_⟩)))
    exact mem_prefixChanges.mpr (Or.inr ⟨hcond, rfl⟩)

/-! ## The claims -/

/-- C1: the claim says the modified-function analysis step completes without
raising for every pair of extracted signatures, including the empty string
produced for a missing or unreadable file.  The code does not: extraction of
a missing file yields `""`, and on `""` the return-token computation
`old_sig.split('(')[0].strip().split()[-1]` (kernel_api_analyzer.py:100)
indexes an empty list and raises `IndexError`, so the analysis of the symbol
aborts instead of reporting partial results. -/
theorem C1_empty_old_signature_index_error :
    extract_function_signature none 10 = "" ∧
    analyzeModifiedFunction (extract_function_signature none 10) "int foo(void)" =
      .error "IndexError: list index out of range" := by
  constructor
  · rfl
  · rfl

/-- C2 counterexample: the claim says decomposing a header whose parameter
text is `"int (*cb)(int, int), long n"` yields exactly 2 parameters; the
code yields 0, because the regex `\((.*?)\)` captures only `"int (*cb"` —
up to the first `')'`, not the matching one. -/
theorem C2_nested_paren_counterexample :
    parse_function_parameters "void f(int (*cb)(int, int), long n)" = [] ∧
    (parse_function_parameters "void f(int (*cb)(int, int), long n)").length ≠ 2 := by
  constructor
  · rfl
  · decide

/-- C2 amended: the decomposer captures the span from the first `'('` of the
header to the first `')'` after it (non-greedy regex), not a depth-0
matching span, so the captured span never contains `')'` and a nested
`(...)` truncates it; commas nested inside inner square brackets within the
captured span still never split parameters (`"int a[x,y], long n"` yields
exactly 2 parameters), while the nested-paren header of the claim yields 0. -/
theorem C2_param_span_to_first_close_paren :
    (∀ (sig : String) (span : List Char), findParamSpan sig.toList = some span →
      (')' ∈ span → False)) ∧
    parse_function_parameters "void f(int a[x,y], long n)" =
      [⟨"int", "a[x,y]", "int a[x,y]"⟩, ⟨"long", "n", "long n"⟩] ∧
    parse_function_parameters "void f(int (*cb)(int, int), long n)" = [] := by
  refine ⟨fun sig span h => (findParamSpan_no_close h).1, ?_, ?_⟩ <;> rfl

/-- C3: the parameter diff is strictly positional: one `param_count_change`
with the two lengths exactly when the lengths differ; over the overlapping
prefix a `param_type_change` at position `i` exactly when the types at `i`
differ; after the prefix one `param_added` (new longer) or `param_removed`
(old longer) per extra parameter, in source order.  Concretely,
`[int a]` vs `[int a, int b]` yields exactly `CountChanged{1,2}` and
`Added{1, "int b"}`, and `[int a]` vs `[long a]` yields exactly
`TypeChanged{0, int, long, a}` and no count change. -/
theorem C3_param_diff_strictly_positional :
    (∀ old_params new_params : List Param,
      ((compare_function_parameters old_params new_params).filter isCountChange =
        if old_params.length = new_params.length then []
        else [.param_count_change old_params.length new_params.length]) ∧
      (∀ i : Nat,
        (ParamChange.param_type_change i (old_params.getD i defaultParam).type
            (new_params.getD i defaultParam).type (new_params.getD i defaultParam).name ∈
          compare_function_parameters old_params new_params) ↔
        (i < min old_params.length new_params.length ∧
          (old_params.getD i defaultParam).type ≠ (new_params.getD i defaultParam).type)) ∧
      ((compare_function_parameters old_params new_params).filter isAddedChange =
        if old_params.length < new_params.length then
          (List.range' old_params.length (new_params.length - old_params.length)).map
            fun i => .param_added i ((new_params.getD i defaultParam).full)
        else []) ∧
      ((compare_function_parameters old_params new_params).filter isRemovedChange =
        if new_params.length < old_params.length then
          (List.range' new_params.length (old_params.length - new_params.length)).map
            fun i => .param_removed i ((old_params.getD i defaultParam).full)
        else [])) ∧
    compare_function_parameters [⟨"int", "a", "int a"⟩]
        [⟨"int", "a", "int a"⟩, ⟨"int", "b", "int b"⟩] =
      [.param_count_change 1 2, .param_added 1 "int b"] ∧
    compare_function_parameters [⟨"int", "a", "int a"⟩] [⟨"long", "a", "long a"⟩] =
      [.param_type_change 0 "int" "long" "a"] := by
  refine ⟨fun old_params new_params =>
    ⟨compare_filter_count old_params new_params,
     fun i => compare_mem_type_change old_params new_params i,
     compare_filter_added old_params new_params,
     compare_filter_removed old_params new_params⟩, by decide, by decide⟩

/-- C4 counterexample: the claim says a `param_name_change` is emitted at a
position only when the two types there are equal, and never together with a
`param_type_change`; but for `[int a]` vs `[long b]` the code emits both
records at position 0 although the types differ. -/
theorem C4_type_and_name_change_counterexample :
    compare_function_parameters [⟨"int", "a", "int a"⟩] [⟨"long", "b", "long b"⟩] =
      [.param_type_change 0 "int" "long" "b", .param_name_change 0 "a" "b"] ∧
    ("int" : String) ≠ "long" := by
  constructor
  · rfl
  · decide

/-- C4 amended: a `param_name_change` at position `i` is emitted iff `i` is
in the overlapping prefix and both names are non-empty and differ —
independently of whether the types at `i` are equal; so when both the types
and the names differ at a position, both a `param_type_change` and a
`param_name_change` are emitted there. -/
theorem C4_name_change_independent_of_type (old_params new_params : List Param) (i : Nat) :
    (ParamChange.param_name_change i (old_params.getD i defaultParam).name
        (new_params.getD i defaultParam).name ∈
      compare_function_parameters old_params new_params) ↔
      (i < min old_params.length new_params.length ∧
        (old_params.getD i defaultParam).name ≠ "" ∧
        (new_params.getD i defaultParam).name ≠ "" ∧
        (old_params.getD i defaultParam).name ≠ (new_params.getD i defaultParam).name) :=
  compare_mem_name_change old_params new_params i

/-- C5: the field diff's `added` carries the set new−old, `removed` the set
old−new, and a reorder entry is recorded at exactly the positions `i` of the
overlapping prefix where `old[i] ≠ new[i]`, `old[i]` occurs in the new list
and `new[i]` occurs in the old list.  Concretely, a pure swap yields empty
added/removed and reorder entries at both positions, and a retype yields the
simultaneous add+remove and no reorder entry. -/
theorem C5_field_diff_sets_and_reorder :
    (∀ (old_fields new_fields : List String) (x : String),
      (x ∈ (compare_struct_fields old_fields new_fields).added ↔
        x ∈ new_fields ∧ x ∉ old_fields) ∧
      (x ∈ (compare_struct_fields old_fields new_fields).removed ↔
        x ∈ old_fields ∧ x ∉ new_fields)) ∧
    (∀ (old_fields new_fields : List String) (e : ReorderEntry),
      e ∈ (compare_struct_fields old_fields new_fields).modified ↔
        (e.position < min old_fields.length new_fields.length ∧
          old_fields.getD e.position "" = e.old ∧ new_fields.getD e.position "" = e.new ∧
          e.old ≠ e.new ∧ e.old ∈ new_fields ∧ e.new ∈ old_fields)) ∧
    compare_struct_fields ["int x;", "int y;"] ["int y;", "int x;"] =
      ⟨[], [], [⟨0, "int x;", "int y;"⟩, ⟨1, "int y;", "int x;"⟩]⟩ ∧
    compare_struct_fields ["int x;"] ["long x;"] = ⟨["long x;"], ["int x;"], []⟩ := by
  refine ⟨fun o n x => ⟨?_, ?_⟩, fun o n e => ?_, by decide, by decide⟩
  · simp [compare_struct_fields, List.mem_filter, List.mem_dedup]
  · simp [compare_struct_fields, List.mem_filter, List.mem_dedup]
  · simp only [compare_struct_fields, List.mem_filterMap, List.mem_range]
    constructor
    · rintro ⟨i, hi, hsome⟩
      split at hsome
      · rename_i hcond
        cases hsome
        exact ⟨hi, rfl, rfl, hcond.1, hcond.2.1, hcond.2.2⟩
      · cases hsome
    · rintro ⟨hi, hold, hnew, hne, hmemn, hmemo⟩
      refine ⟨e.position, hi, ?_⟩
      rw [hold, hnew, if_pos ⟨hne, hmemn, hmemo⟩]

/-- C6 counterexample: the claim says every asterisk prefixing the candidate
name is moved onto the type; but on `"char **b"` the code appends a single
`' *'` to the type, which then carries one asterisk, not two. -/
theorem C6_double_asterisk_counterexample :
    (_parse_single_param "char **b").type = "char *" ∧
    (_parse_single_param "char **b").type.toList.count '*' ≠ 2 := by
  constructor
  · rfl
  · decide

/-- C6 amended: when the candidate name begins with one or more asterisks,
all of them are stripped from the name — the resulting name never starts
with `'*'` — but exactly one `' *'` is appended to the type regardless of
their number; for a single asterisk this matches the claim, and
`decompose("int a, char *b")` yields the stated result, while `"char **b"`
yields type `"char *"` with one asterisk. -/
theorem C6_single_asterisk_moved_to_type :
    (∀ s : String, ((_parse_single_param s).name.toList.dropWhile fun c => c = '*') =
      (_parse_single_param s).name.toList) ∧
    parse_function_parameters "void f(int a, char *b)" =
      [⟨"int", "a", "int a"⟩, ⟨"char *", "b", "char *b"⟩] ∧
    _parse_single_param "char **b" = ⟨"char *", "b", "char **b"⟩ :=
  ⟨parse_single_param_name_no_star, rfl, rfl⟩

/-- C7: for headers that contain a `'('` preceded by at least one
whitespace-delimited token, the emitted `return_type_changed` flag is true
iff the last whitespace-delimited token before the first `'('` differs
between the two headers; since that token is the function name, changing
only the return type with the same function name leaves the flag false, as
in the concrete `int foo(void)` vs `long foo(void)` pair. -/
theorem C7_return_type_flag_is_last_token_diff :
    (∀ (old_sig new_sig old_return new_return : String),
      old_sig ≠ new_sig →
      '(' ∈ old_sig.toList → '(' ∈ new_sig.toList →
      lastTokenBeforeParen old_sig = some old_return →
      lastTokenBeforeParen new_sig = some new_return →
      ∃ r : ModifiedFunctionRecord,
        analyzeModifiedFunction old_sig new_sig = .ok (some r) ∧
        (r.return_type_changed = true ↔ old_return ≠ new_return)) ∧
    analyzeModifiedFunction "int foo(void)" "long foo(void)" =
      .ok (some ⟨false, "foo", "foo", []⟩) := by
  constructor
  · intro old_sig new_sig old_return new_return hne _hp₁ _hp₂ ha hb
    refine ⟨⟨decide (old_return ≠ new_return), old_return, new_return,
      compare_function_parameters (parse_function_parameters old_sig)
        (parse_function_parameters new_sig)⟩, ?_, ?_⟩
    · simp only [analyzeModifiedFunction, if_neg hne, ha, hb]
    · exact decide_eq_true_iff
  · rfl

/-- C8: a structure diff with a non-empty removed set yields a finding of
severity high; with removed empty but added and/or reordered non-empty the
finding has severity medium; in particular an added-only diff yields
medium. -/
theorem C8_struct_severity_policy :
    (∀ s : StructChangeRecord,
      (s.field_changes.removed ≠ [] →
        ((_analyze_struct_abi_impact s).map ABIFinding.severity) = some "high") ∧
      (s.field_changes.removed = [] →
        (s.field_changes.added ≠ [] ∨ s.field_changes.modified ≠ []) →
        ((_analyze_struct_abi_impact s).map ABIFinding.severity) = some "medium")) ∧
    _analyze_struct_abi_impact ⟨"s", "f.h", ⟨["int x;"], [], []⟩⟩ =
      some ⟨"structure", "s", "f.h", "medium",
        ["Fields added (potential ABI break)"], "Review all users of this structure"⟩ := by
  constructor
  · intro s
    constructor
    · intro hrem
      simp [_analyze_struct_abi_impact, hrem]
    · intro hrem hne
      rcases hne with hadd | hmod
      · simp [_analyze_struct_abi_impact, hrem, hadd]
      · simp [_analyze_struct_abi_impact, hrem, hmod]
  · rfl

/-- C9: a function diff whose parameter changes are all `param_name_change`
records, with the return-type flag false, produces no ABI finding at all. -/
theorem C9_name_only_changes_no_finding (f : FunctionChangeRecord)
    (hname : ∀ c ∈ f.parameter_changes, isNameChange c = true)
    (hret : f.return_type_changed = false) :
    _analyze_function_abi_impact f = none := by
  have hc : f.parameter_changes.filter isCountChange = [] := by
    refine List.filter_eq_nil_iff.mpr fun c hc => ?_
    have := hname c hc
    cases c <;> simp_all [isNameChange, isCountChange]
  have ht : f.parameter_changes.filter isTypeChange = [] := by
    refine List.filter_eq_nil_iff.mpr fun c hc => ?_
    have := hname c hc
    cases c <;> simp_all [isNameChange, isTypeChange]
  simp [_analyze_function_abi_impact, hc, ht, hret]

/-- C9 witness: a name-only rename diff, concretely, yields no finding. -/
theorem C9_name_only_changes_no_finding_witness :
    _analyze_function_abi_impact ⟨"foo", "f.c", [.param_name_change 0 "a" "b"], false⟩ = none :=
  C9_name_only_changes_no_finding ⟨"foo", "f.c", [.param_name_change 0 "a" "b"], false⟩
    (by decide) rfl

/-- C10: declaration extraction never raises — it is a total function here —
and a missing or unreadable file yields the empty signature (functions) or
the empty field list (structures), while an approximate line pointing past
end-of-file yields the same empty results. -/
theorem C10_extraction_total_on_missing_data
    (struct_name : String) (line_num : Nat) (lines : List String) :
    (extract_function_signature none line_num = "" ∧
      extract_struct_fields none struct_name line_num = []) ∧
    (lines.length < line_num →
      extract_function_signature (some lines) line_num = "" ∧
      extract_struct_fields (some lines) struct_name line_num = []) := by
  refine ⟨⟨rfl, rfl⟩, fun hpast => ?_⟩
  have hwin : ∀ k : Nat, min lines.length (line_num + k) - (line_num - 1) = 0 := by
    intro k
    have h1 : lines.length ≤ line_num - 1 := by omega
    have h2 : min lines.length (line_num + k) ≤ line_num - 1 :=
      le_trans (min_le_left _ _) h1
    omega
  constructor
  · simp only [extract_function_signature, hwin 20, List.range'_zero, List.map_nil]
    rfl
  · simp only [extract_struct_fields, hwin 500, List.range'_zero, List.map_nil]
    rfl

end KernelApiDiff
